import Mathlib

/-!
Verification development for the TrendRadar custom-sources adapter
(`sources.py`).  The Python module is shallowly embedded: pure functions
become Lean functions, the external libraries (unicode NFKC, OpenCC,
rapidfuzz, dateutil, md5, urljoin, the clock) become abstract function
fields of an `Ctx` environment, and the asynchronous fetch of each source
becomes an oracle `SCfg → Except String (List Item)` so that the
orchestrator's control flow can be studied exactly.  Python dicts that the
code builds by insertion/overwrite are modelled as insertion-ordered
association lists.
-/

set_option maxRecDepth 4000

/-- Environment of external capabilities used by `sources.py`:
`nfkc` models `unicodedata.normalize("NFKC", ·)`, `opencc` the optional
traditional→simplified converter (`None` when the backend is missing),
`fuzzScore` the optional `rapidfuzz` token-set similarity (0–100; `None`
when missing), `dateParse` models `dateutil.parser.parse(s).timestamp()`
as `some` epoch seconds or `none` when parsing raises, `md5` the hex
digest of `hashlib.md5`, `urljoin` the stdlib URL join, and `now` the
current wall clock `int(time.time())`. -/
structure Ctx where
  nfkc : String → String
  opencc : Option (String → String)
  fuzzScore : Option (String → String → Nat)
  dateParse : String → Option Int
  md5 : String → String
  urljoin : String → String → String
  now : Int

/-- A concrete environment for evaluating witnesses and counterexamples:
identity NFKC (exact on ASCII inputs), no OpenCC backend, no fuzzy
backend, date parsing always failing, trivial digest, trivial join. -/
def idCtx : Ctx :=
  ⟨id, none, none, fun _ => none, fun _ => "", fun _ u => u, 0⟩

/-- Python `str.strip()` (on the ASCII whitespace that occurs here),
written by structural recursion over the character list so that concrete
instances reduce inside the kernel (`String.trim` itself is defined by
well-founded recursion over byte positions and does not). -/
def pyStrip (s : String) : String :=
  ⟨((s.data.dropWhile Char.isWhitespace).reverse.dropWhile Char.isWhitespace).reverse⟩

/-- Python `str.lower()`, structurally recursive for the same reason. -/
def pyLower (s : String) : String :=
  ⟨s.data.map Char.toLower⟩

/-- Python `str.startswith(pre)`, structurally recursive for the same
reason. -/
def pyStartsWith (s pre : String) : Bool :=
  s.data.take pre.data.length == pre.data

/-- Python values that reach `parse_ts` (`Any`): `None`, numbers
(modelled on integers), strings, and anything else. -/
inductive PyVal where
  | none
  | int (n : Int)
  | str (s : String)
  | other
deriving DecidableEq, Repr

/-- Python values that occupy the `rank` field (`Optional[Any]`):
`None`, integers, or strings. -/
inductive RankVal where
  | none
  | int (n : Int)
  | str (s : String)
deriving DecidableEq, Repr

/-- Model of `normalize_text(s, use_opencc)`: empty (falsy) input gives `""`;
otherwise NFKC-fold, optionally convert script when the OpenCC backend
is available, then strip. -/
def normalize_text (ctx : Ctx) (s : String) (use_opencc : Bool) : String :=
  if s = "" then ""
  else
    let t := ctx.nfkc s
    let t :=
      if use_opencc then
        match ctx.opencc with
        | some conv => conv t
        | Option.none => t
      else t
    pyStrip t

/-- Model of `parse_ts(v)`: `None` → now; numeric → divide by 1000 when `> 1e12`
(Python floor division, hence `Int.fdiv`), else the value itself; string
→ parsed epoch or now on failure; any other type → now. -/
def parse_ts (ctx : Ctx) (v : PyVal) : Int :=
  match v with
  | PyVal.none => ctx.now
  | PyVal.int n => if (1000000000000 : Int) < n then Int.fdiv n 1000 else n
  | PyVal.str s =>
    match ctx.dateParse s with
    | some t => t
    | Option.none => ctx.now
  | PyVal.other => ctx.now

/-- Model of `make_id(source_key, title, url)`: md5 hex digest of
`source_key | normalize_text(title) | url` (note: `use_opencc` defaults
to `False` here). -/
def make_id (ctx : Ctx) (source_key title url : String) : String :=
  ctx.md5 (source_key ++ "|" ++ normalize_text ctx title false ++ "|" ++ url)

/-- The `Item` dataclass. -/
structure Item where
  title : String
  url : String
  ts : Int
  rank : RankVal
  source : String
  source_key : String
  id : String
deriving DecidableEq, Repr

/-- The plain dict produced by `Item.to_dict()` (and consumed by
`dedup_items` / `custom_to_results`). -/
structure ItemDict where
  title : String
  url : String
  ts : Int
  rank : RankVal
  source : String
  source_key : String
  id : String
deriving DecidableEq, Repr

/-- Model of `Item.to_dict()`. -/
def Item.to_dict (x : Item) : ItemDict :=
  ⟨x.title, x.url, x.ts, x.rank, x.source, x.source_key, x.id⟩

/-- The identity a `BaseSource` carries: `self.name` and `self.key`. -/
structure SrcId where
  name : String
  key : String
deriving DecidableEq, Repr

/-- Model of the item constructor `_mk_item(title, url, ts, rank)`: normalize the title
(OpenCC enabled), strip the url, normalize the timestamp, stamp the
source identity and the deterministic id. -/
def mk_item (ctx : Ctx) (s : SrcId) (title url : String) (ts : PyVal) (rank : RankVal) : Item :=
  let t := normalize_text ctx title true
  let u := pyStrip url
  ⟨t, u, parse_ts ctx ts, rank, s.name, s.key, make_id ctx s.key t u⟩

/-- One element of the REST response list after jsonpath extraction:
the values `_safe_get` returned for `title`, `url`, `ts`, `rank`
(`title`/`url` default to `""`, the rest to `None`).  Non-string
title/url extractions are outside the model. -/
structure RestRaw where
  title : String
  url : String
  ts : PyVal
  rank : RankVal
deriving DecidableEq, Repr

/-- The loop body of `RestSource.fetch` for one extracted element:
elements with falsy title or url are skipped, the rest become items via
`_mk_item`. -/
def restElemItem? (ctx : Ctx) (s : SrcId) (e : RestRaw) : Option Item :=
  if e.title = "" ∨ e.url = "" then Option.none
  else some (mk_item ctx s e.title e.url e.ts e.rank)

/-- The per-element loop of `RestSource.fetch`. -/
def restFetchItems (ctx : Ctx) (s : SrcId) (els : List RestRaw) : List Item :=
  els.filterMap (restElemItem? ctx s)

/-- A feed entry as `feedparser` hands it to `RssSource.fetch`:
`e.get("title")`, `e.get("link")`, and the epoch seconds
`int(time.mktime(e.published_parsed))` when a parsed published time is
present (the `mktime` conversion is abstracted into the integer). -/
structure RssEntry where
  title : Option String
  link : Option String
  published : Option Int
deriving DecidableEq, Repr

/-- The per-entry loop of `RssSource.fetch`: entries with falsy title or
link are skipped; `ts` starts at `0` and is replaced by the published
epoch when present; items are built by `_mk_item(title, url, ts)` with
`rank = None`. -/
def rssEntryItem? (ctx : Ctx) (s : SrcId) (e : RssEntry) : Option Item :=
  if e.title.getD "" = "" ∨ e.link.getD "" = "" then Option.none
  else
    some (mk_item ctx s (e.title.getD "") (e.link.getD "")
      (PyVal.int (match e.published with | some m => m | Option.none => 0)) RankVal.none)

/-- The per-entry loop of `RssSource.fetch`. -/
def rssFetchItems (ctx : Ctx) (s : SrcId) (entries : List RssEntry) : List Item :=
  entries.filterMap (rssEntryItem? ctx s)

/-- An HTML item node as `HtmlSource.fetch` reads it: the resolved title
(node text or attribute), the raw `url_attr` value, and the optional
timestamp string obtained from the timestamp selector. -/
structure HtmlNode where
  rawTitle : String
  rawUrl : String
  tsVal : Option String
deriving DecidableEq, Repr

/-- URL resolution in `HtmlSource.fetch`: a non-empty url that does not
start with `http://` or `https://` is joined against the endpoint. -/
def joinUrl (ctx : Ctx) (ep raw : String) : String :=
  if raw ≠ "" ∧ ¬(pyStartsWith raw "http://" = true ∨ pyStartsWith raw "https://" = true) then
    ctx.urljoin ep raw
  else raw

/-- The per-node loop of `HtmlSource.fetch`: resolve the url, skip nodes
with falsy title or url, build items via `_mk_item(title, url, ts_val)`
with `rank = None`. -/
def htmlNodeItem? (ctx : Ctx) (s : SrcId) (ep : String) (a : HtmlNode) : Option Item :=
  if a.rawTitle = "" ∨ joinUrl ctx ep a.rawUrl = "" then Option.none
  else
    some (mk_item ctx s a.rawTitle (joinUrl ctx ep a.rawUrl)
      (match a.tsVal with | some v => PyVal.str v | Option.none => PyVal.none) RankVal.none)

/-- The per-node loop of `HtmlSource.fetch`. -/
def htmlFetchItems (ctx : Ctx) (s : SrcId) (ep : String) (nodes : List HtmlNode) : List Item :=
  nodes.filterMap (htmlNodeItem? ctx s ep)

/-- A source configuration as `fetch_custom_all` reads it: its `type`
string (`cfg.get .. type, or else the empty string,` modelled as a plain string) and its
optional `key`. -/
structure SCfg where
  type : String
  key : Option String
deriving DecidableEq, Repr

/-- Model of `_build_source`: the lower-cased type, when recognized. -/
def build_source_type (c : SCfg) : Option String :=
  let t := pyLower c.type
  if t = "rest" then some "rest"
  else if t = "rss" then some "rss"
  else if t = "html" then some "html"
  else Option.none

/-- Whether `_build_source` returns an adapter for this config. -/
def recognized (c : SCfg) : Bool :=
  (build_source_type c).isSome

/-- The key used in the failure log line:
`src_cfgs[i].get("key", f"unknown_source_i")` where `i` indexes the
gathered results (the out-of-range branch never fires in the code since
there are at most as many results as configs). -/
def keyForLog (cfgs : List SCfg) (i : Nat) : String :=
  match cfgs.get? i with
  | some c => c.key.getD ("unknown_source_" ++ toString i)
  | Option.none => "unknown_source_" ++ toString i

/-- Model of `fetch_custom_all(config)`: build one adapter per recognized config
(in order), gather each adapter's outcome (`fetch` is the oracle giving
each config's fetch result), log one key per failed outcome, and return
the concatenation of the successful item lists serialized via
`to_dict`, together with the logged keys. -/
def fetch_custom_all (fetch : SCfg → Except String (List Item)) (cfgs : List SCfg) :
    List ItemDict × List String :=
  let tasks := cfgs.filter recognized
  let results := tasks.map fetch
  let logs := results.enum.filterMap fun p =>
    match p.2 with
    | Except.error _ => some (keyForLog cfgs p.1)
    | Except.ok _ => Option.none
  let merged := (results.filterMap fun r =>
    match r with
    | Except.ok v => some v
    | Except.error _ => Option.none).flatten
  (merged.map Item.to_dict, logs)

/-- Model of the title key `_title_key(title)`:
`normalize_text(title, use_opencc=True)`. -/
def title_key (ctx : Ctx) (t : String) : String :=
  normalize_text ctx t true

/-- The stripped url a dict item contributes to dedup. -/
def urlOf (it : ItemDict) : String :=
  pyStrip it.url

/-- State of the dedup scan: the set of seen urls and the keys of the
`seen_title` dict (its values are never read; key order is irrelevant
because only membership and an any-of-scores test are performed). -/
structure DState where
  seenUrl : List String
  seenTitle : List String
deriving DecidableEq, Repr

/-- The fuzzy branch of `dedup_items`: when the rapidfuzz backend is
available, whether some seen title key scores at least the threshold
against the candidate key (Python's loop with early break computes
exactly this disjunction). -/
def fuzzyHit (ctx : Ctx) (thr : Nat) (tkey : String) (seen : List String) : Bool :=
  match ctx.fuzzScore with
  | some score => seen.any fun tk => decide (thr ≤ score tkey tk)
  | Option.none => false

/-- Whether the loop body of `dedup_items` keeps the item (reaches the
final `out.append`) given the current seen-state. -/
def keepItem (ctx : Ctx) (ef : Bool) (thr : Nat) (st : DState) (it : ItemDict) : Bool :=
  if urlOf it ≠ "" ∧ urlOf it ∈ st.seenUrl then false
  else if title_key ctx it.title ≠ "" ∧ title_key ctx it.title ∈ st.seenTitle then false
  else if ef ∧ fuzzyHit ctx thr (title_key ctx it.title) st.seenTitle then false
  else true

/-- How a kept item extends the seen-state: its non-empty stripped url
and its non-empty title key are recorded (skipped items record
nothing). -/
def addSeen (ctx : Ctx) (st : DState) (it : ItemDict) : DState :=
  ⟨if urlOf it ≠ "" then urlOf it :: st.seenUrl else st.seenUrl,
   if title_key ctx it.title ≠ "" then title_key ctx it.title :: st.seenTitle else st.seenTitle⟩

/-- The scan loop of `dedup_items` from a given seen-state. -/
def dedupGo (ctx : Ctx) (ef : Bool) (thr : Nat) : DState → List ItemDict → List ItemDict
  | _, [] => []
  | st, it :: rest =>
    if keepItem ctx ef thr st it then
      it :: dedupGo ctx ef thr (addSeen ctx st it) rest
    else
      dedupGo ctx ef thr st rest

/-- Model of `dedup_items(items, enable_fuzzy, fuzzy_threshold)`. -/
def dedup_items (ctx : Ctx) (items : List ItemDict) (ef : Bool) (thr : Nat) : List ItemDict :=
  dedupGo ctx ef thr ⟨[], []⟩ items

/-- Model of `merge_items(base_items, custom_items, ...)`: dedup over the
concatenation. -/
def merge_items (ctx : Ctx) (base custom : List ItemDict) (ef : Bool) (thr : Nat) :
    List ItemDict :=
  dedup_items ctx (base ++ custom) ef thr

/-- One title entry in the reshaped results:
`{"ranks": [...], "url": ..., "mobileUrl": ...}`. -/
structure Entry where
  ranks : List Int
  url : String
  mobileUrl : String
deriving DecidableEq, Repr

/-- Lookup in an insertion-ordered association list (Python dict `[]`
access / `get`). -/
def alistGet? {α : Type} : List (String × α) → String → Option α
  | [], _ => Option.none
  | (k, v) :: rest, key => if k = key then some v else alistGet? rest key

/-- Update in an insertion-ordered association list (Python dict
assignment: existing keys keep their position, new keys append). -/
def alistSet {α : Type} : List (String × α) → String → α → List (String × α)
  | [], key, v => [(key, v)]
  | (k, w) :: rest, key, v =>
    if k = key then (k, v) :: rest else (k, w) :: alistSet rest key v

/-- Namespaced source id used by `custom_to_results`:
`f"custom:{it.get('source_key','custom')}"` (the default never fires for
dicts produced by `fetch_custom_all`, whose `source_key` is always
present). -/
def sidOf (it : ItemDict) : String :=
  "custom:" ++ it.source_key

/-- Display name chosen by `custom_to_results`:
`it.get('source') or sid` (an empty/absent display name falls back to
the source id). -/
def snameOf (it : ItemDict) : String :=
  if it.source = "" then sidOf it else it.source

/-- Effect of `c_results.setdefault(sid, {})`. -/
def ensureBucket (res : List (String × List (String × Entry))) (sid : String) :
    List (String × List (String × Entry)) :=
  if (alistGet? res sid).isSome then res else alistSet res sid []

/-- The digit test guarding the rank append:
`isinstance(rank, (int, float, str)) and str(rank).isdigit()`.  For an
integer, `str(n)` is all digits exactly when `n ≥ 0`; for a string the
Python `isdigit` is modelled on ASCII digit strings; floats always
fail (`str(5.0) = "5.0"` contains a dot) and are folded into the
out-of-model values. -/
def isDigitLike (r : RankVal) : Bool :=
  match r with
  | RankVal.none => false
  | RankVal.int n => decide (0 ≤ n)
  | RankVal.str s => s ≠ "" && s.data.all (fun c => c.isDigit)

/-- Numeric value `int(rank)` extracted when `isDigitLike` holds. -/
def rankValue (r : RankVal) : Int :=
  match r with
  | RankVal.none => 0
  | RankVal.int n => n
  | RankVal.str s => Int.ofNat (s.data.foldl (fun a c => a * 10 + (c.toNat - 48)) 0)

/-- State threaded through the loop of `custom_to_results`:
`(c_results, c_id_to_name)`. -/
abbrev CtrState := List (String × List (String × Entry)) × List (String × String)

/-- One iteration of the loop of `custom_to_results`: register the
display name, ensure the source bucket, then — only for a non-empty
stripped title — fetch-or-create the title entry, backfill its url, and
append the item's own digit-like rank or the sequential fallback
`len(ranks) + 1`. -/
def ctrStep (st : CtrState) (it : ItemDict) : CtrState :=
  let sid := sidOf it
  let names := alistSet st.2 sid (snameOf it)
  let res := ensureBucket st.1 sid
  let title := pyStrip it.title
  if title = "" then (res, names)
  else
    let url := it.url
    let bucket := (alistGet? res sid).getD []
    let entry0 := (alistGet? bucket title).getD ⟨[], url, ""⟩
    let entry1 : Entry :=
      ⟨entry0.ranks ++
        [if isDigitLike it.rank then rankValue it.rank else (entry0.ranks.length : Int) + 1],
       if entry0.url = "" then url else entry0.url,
       entry0.mobileUrl⟩
    (alistSet res sid (alistSet bucket title entry1), names)

/-- Model of `custom_to_results(custom_items)`: fold the loop body over
the items starting from empty mappings. -/
def custom_to_results (custom_items : List ItemDict) : CtrState :=
  custom_items.foldl ctrStep ([], [])

/-- The rank list recorded for a title under a source id (empty when the
source or the title is absent, matching the entry the loop would create
next). -/
def ranksAt (res : List (String × List (String × Entry))) (sid t : String) : List Int :=
  ((alistGet? ((alistGet? res sid).getD []) t).getD ⟨[], "", ""⟩).ranks

/-- On an empty seen-state every item is kept (the first item of a scan
always survives). -/
theorem keepItem_empty (ctx : Ctx) (ef : Bool) (thr : Nat) (it : ItemDict) :
    keepItem ctx ef thr ⟨[], []⟩ it = true := by
  unfold keepItem fuzzyHit
  cases ctx.fuzzScore <;> simp

/-- Rescanning the output of a dedup scan from the same starting state
changes nothing: skipped items never extend the seen-state, so the state
evolution along the kept items repeats exactly. -/
theorem dedupGo_idem (ctx : Ctx) (ef : Bool) (thr : Nat) :
    ∀ (L : List ItemDict) (st : DState),
      dedupGo ctx ef thr st (dedupGo ctx ef thr st L) = dedupGo ctx ef thr st L := by
  intro L
  induction L with
  | nil => intro st; rfl
  | cons it rest ih =>
    intro st
    by_cases h : keepItem ctx ef thr st it = true
    · simp only [dedupGo, if_pos h, ih]
    · simp only [dedupGo, if_neg h, ih]

/-- A dedup scan from any state yields a sublist of its input. -/
theorem dedupGo_sublist (ctx : Ctx) (ef : Bool) (thr : Nat) :
    ∀ (L : List ItemDict) (st : DState), List.Sublist (dedupGo ctx ef thr st L) L := by
  intro L
  induction L with
  | nil => intro st; exact List.Sublist.refl []
  | cons it rest ih =>
    intro st
    by_cases h : keepItem ctx ef thr st it = true
    · simp only [dedupGo, if_pos h]
      exact List.Sublist.cons₂ it (ih _)
    · simp only [dedupGo, if_neg h]
      exact List.Sublist.cons it (ih st)

/-- Claim C3 — `dedup_items` is idempotent: for every item list and
every fixed setting of `enable_fuzzy` and `fuzzy_threshold` (and every
environment of normalization/fuzzy backends), deduplicating twice equals
deduplicating once. -/
theorem dedup_items_idempotent (ctx : Ctx) (L : List ItemDict) (ef : Bool) (thr : Nat) :
    dedup_items ctx (dedup_items ctx L ef thr) ef thr = dedup_items ctx L ef thr :=
  dedupGo_idem ctx ef thr L ⟨[], []⟩

/-- Claim C5 — `dedup_items L` is a sublist of `L` (kept items appear
unmodified and in scan order, so no fields are merged across
duplicates), its length never exceeds that of `L`, and the first item of
a non-empty input always survives (first occurrence wins). -/
theorem dedup_items_sublist_of_input (ctx : Ctx) (L : List ItemDict) (ef : Bool) (thr : Nat) :
    List.Sublist (dedup_items ctx L ef thr) L ∧
    (dedup_items ctx L ef thr).length ≤ L.length ∧
    (∀ (it : ItemDict) (rest : List ItemDict),
      (dedup_items ctx (it :: rest) ef thr).head? = some it) := by
  refine ⟨dedupGo_sublist ctx ef thr L ⟨[], []⟩,
    List.Sublist.length_le (dedupGo_sublist ctx ef thr L ⟨[], []⟩), ?_⟩
  intro it rest
  have h := keepItem_empty ctx ef thr it
  simp [dedup_items, dedupGo, h]

/-- Claim C4, counterexample — two items whose URLs are empty and whose
titles agree after normalization (both are empty) are BOTH kept by
`dedup_items`, because an empty title key is never recorded as seen; the
claim as stated demands that only the first survive. -/
theorem dedup_items_keeps_blank_duplicates :
    dedup_items idCtx [⟨"", "", 0, RankVal.none, "", "", ""⟩,
                       ⟨"", "", 0, RankVal.none, "", "", ""⟩] false 90 =
      [⟨"", "", 0, RankVal.none, "", "", ""⟩, ⟨"", "", 0, RankVal.none, "", "", ""⟩] ∧
    urlOf ⟨"", "", 0, RankVal.none, "", "", ""⟩ = "" ∧
    title_key idCtx "" = "" ∧
    [(⟨"", "", 0, RankVal.none, "", "", ""⟩ : ItemDict),
     ⟨"", "", 0, RankVal.none, "", "", ""⟩] ≠ [⟨"", "", 0, RankVal.none, "", "", ""⟩] := by
  refine ⟨rfl, rfl, rfl, by decide⟩

/-- Claim C4, amended — for a two-item input where both items have the
same non-empty (stripped) URL, only the first survives; and for a
two-item input whose URLs are empty or distinct but whose titles are
equal AND NON-EMPTY after title normalization, only the first survives
(the original claim fails when the common normalized title is empty). -/
theorem dedup_items_pair_first_wins :
    (∀ (ctx : Ctx) (ef : Bool) (thr : Nat) (a b : ItemDict),
        urlOf a ≠ "" → urlOf b = urlOf a →
        dedup_items ctx [a, b] ef thr = [a]) ∧
    (∀ (ctx : Ctx) (ef : Bool) (thr : Nat) (a b : ItemDict),
        title_key ctx a.title ≠ "" →
        title_key ctx b.title = title_key ctx a.title →
        (urlOf b = "" ∨ urlOf b ≠ urlOf a) →
        dedup_items ctx [a, b] ef thr = [a]) := by
  constructor
  · intro ctx ef thr a b ha hb
    have h1 := keepItem_empty ctx ef thr a
    have hmem : urlOf b ∈ (addSeen ctx ⟨[], []⟩ a).seenUrl := by
      simp [addSeen, ha, hb]
    have h2 : keepItem ctx ef thr (addSeen ctx ⟨[], []⟩ a) b = false := by
      unfold keepItem
      rw [if_pos ⟨by rw [hb]; exact ha, hmem⟩]
    simp [dedup_items, dedupGo, h1, h2]
  · intro ctx ef thr a b hta htb hurl
    have h1 := keepItem_empty ctx ef thr a
    have hmem : title_key ctx b.title ∈ (addSeen ctx ⟨[], []⟩ a).seenTitle := by
      simp [addSeen, hta, htb]
    have hnot : ¬(urlOf b ≠ "" ∧ urlOf b ∈ (addSeen ctx ⟨[], []⟩ a).seenUrl) := by
      rintro ⟨hne, hm⟩
      by_cases hua : urlOf a = ""
      · simp [addSeen, hua] at hm
      · simp [addSeen, hua] at hm
        rcases hurl with h | h
        · exact hne h
        · exact h hm
    have h2 : keepItem ctx ef thr (addSeen ctx ⟨[], []⟩ a) b = false := by
      unfold keepItem
      rw [if_neg hnot, if_pos ⟨by rw [htb]; exact hta, hmem⟩]
    simp [dedup_items, dedupGo, h1, h2]

/-- Witness for the amended claim C4 at concrete inputs: a duplicated
non-empty URL with distinct titles, and a duplicated non-empty title
with empty URLs. -/
theorem dedup_items_pair_first_wins_witness :
    dedup_items idCtx [⟨"t1", "u", 0, RankVal.none, "", "", ""⟩,
                       ⟨"t2", "u", 0, RankVal.none, "", "", ""⟩] false 90 =
      [⟨"t1", "u", 0, RankVal.none, "", "", ""⟩] ∧
    dedup_items idCtx [⟨"T", "", 0, RankVal.none, "", "", ""⟩,
                       ⟨"T", "", 5, RankVal.none, "", "", ""⟩] false 90 =
      [⟨"T", "", 0, RankVal.none, "", "", ""⟩] :=
  ⟨dedup_items_pair_first_wins.1 idCtx false 90 _ _ (by decide) (by decide),
   dedup_items_pair_first_wins.2 idCtx false 90 _ _ (by decide) (by decide) (Or.inl (by decide))⟩

/-- Claim C6, counterexample — a numeric input whose MAGNITUDE exceeds
1e12 but which is negative is NOT treated as milliseconds: the code
compares `v > 1e12` signed, so `parse_ts(-2000000000000)` returns the
value unchanged instead of floor-dividing it by 1000. -/
theorem parse_ts_negative_magnitude_not_ms :
    (1000000000000 : Int) < 2000000000000 ∧
    parse_ts idCtx (PyVal.int (-2000000000000)) = -2000000000000 ∧
    Int.fdiv (-2000000000000) 1000 = -2000000000 ∧
    (-2000000000000 : Int) ≠ -2000000000 := by
  refine ⟨by decide, rfl, by decide, by decide⟩

/-- Claim C6, amended — `parse_ts` is total and never raises: numeric
input STRICTLY GREATER than 1e12 (a signed comparison, not a magnitude
test) is treated as milliseconds and floor-divided by 1000, other
numeric input (including negatives of large magnitude) is returned as
integer seconds; a string that fails date parsing, `None`, and any other
input type all yield the current wall-clock time, and a string that
parses yields its epoch value. -/
theorem parse_ts_total_cases :
    (∀ (ctx : Ctx) (n : Int),
        parse_ts ctx (PyVal.int n) =
          if (1000000000000 : Int) < n then Int.fdiv n 1000 else n) ∧
    (∀ ctx : Ctx, parse_ts ctx PyVal.none = ctx.now) ∧
    (∀ (ctx : Ctx) (s : String) (t : Int),
        ctx.dateParse s = some t → parse_ts ctx (PyVal.str s) = t) ∧
    (∀ (ctx : Ctx) (s : String),
        ctx.dateParse s = Option.none → parse_ts ctx (PyVal.str s) = ctx.now) ∧
    (∀ ctx : Ctx, parse_ts ctx PyVal.other = ctx.now) := by
  refine ⟨fun ctx n => rfl, fun ctx => rfl, ?_, ?_, fun ctx => rfl⟩
  · intro ctx s t h
    simp [parse_ts, h]
  · intro ctx s h
    simp [parse_ts, h]

/-- Environment with a date parser that succeeds on exactly one input,
for exercising the string branches of `parse_ts`. -/
def ctxD : Ctx :=
  ⟨id, none, none, fun s => if s = "d" then some 5 else Option.none,
   fun _ => "", fun _ u => u, 7⟩

/-- Witness for the amended claim C6: concrete instances of the
hypothesis-bearing string branches. -/
theorem parse_ts_total_cases_witness :
    parse_ts ctxD (PyVal.str "d") = 5 ∧ parse_ts ctxD (PyVal.str "x") = ctxD.now :=
  ⟨parse_ts_total_cases.2.2.1 ctxD "d" 5 (by decide),
   parse_ts_total_cases.2.2.2.1 ctxD "x" (by decide)⟩

/-- Claim C2, counterexample — a REST element whose extracted title is
the single space passes the pre-normalization falsy check, and the item
built from it has an EMPTY title after normalization/trimming: adapters
can emit records whose title is empty, contrary to the claim. -/
theorem rest_fetch_emits_empty_title :
    (restFetchItems idCtx ⟨"n", "k"⟩ [⟨" ", "u", PyVal.none, RankVal.none⟩]).map Item.title
      = [""] ∧
    (" " : String) ≠ "" := by
  refine ⟨rfl, by decide⟩

/-- Claim C2, amended — every record produced by any adapter's fetch
(REST, RSS, or HTML) is built by `_mk_item` from a RAW title and url
that are non-empty (records whose raw title or url is falsy are
discarded before construction); after normalization/trimming the stored
title or url may nevertheless be empty when the raw value was
whitespace-only. -/
theorem adapters_require_raw_title_url :
    (∀ (ctx : Ctx) (s : SrcId) (els : List RestRaw) (it : Item),
        it ∈ restFetchItems ctx s els →
        ∃ e ∈ els, e.title ≠ "" ∧ e.url ≠ "" ∧
          it = mk_item ctx s e.title e.url e.ts e.rank) ∧
    (∀ (ctx : Ctx) (s : SrcId) (entries : List RssEntry) (it : Item),
        it ∈ rssFetchItems ctx s entries →
        ∃ e ∈ entries, e.title.getD "" ≠ "" ∧ e.link.getD "" ≠ "" ∧
          it = mk_item ctx s (e.title.getD "") (e.link.getD "")
            (PyVal.int (match e.published with | some m => m | Option.none => 0))
            RankVal.none) ∧
    (∀ (ctx : Ctx) (s : SrcId) (ep : String) (nodes : List HtmlNode) (it : Item),
        it ∈ htmlFetchItems ctx s ep nodes →
        ∃ a ∈ nodes, a.rawTitle ≠ "" ∧ joinUrl ctx ep a.rawUrl ≠ "" ∧
          it = mk_item ctx s a.rawTitle (joinUrl ctx ep a.rawUrl)
            (match a.tsVal with | some v => PyVal.str v | Option.none => PyVal.none)
            RankVal.none) := by
  refine ⟨?_, ?_, ?_⟩
  · intro ctx s els it hmem
    rw [restFetchItems, List.mem_filterMap] at hmem
    obtain ⟨e, he, hf⟩ := hmem
    refine ⟨e, he, ?_⟩
    unfold restElemItem? at hf
    by_cases hc : e.title = "" ∨ e.url = ""
    · rw [if_pos hc] at hf
      exact absurd hf (by simp)
    · rw [if_neg hc] at hf
      push_neg at hc
      exact ⟨hc.1, hc.2, (Option.some.inj hf).symm⟩
  · intro ctx s entries it hmem
    rw [rssFetchItems, List.mem_filterMap] at hmem
    obtain ⟨e, he, hf⟩ := hmem
    refine ⟨e, he, ?_⟩
    unfold rssEntryItem? at hf
    by_cases hc : e.title.getD "" = "" ∨ e.link.getD "" = ""
    · rw [if_pos hc] at hf
      exact absurd hf (by simp)
    · rw [if_neg hc] at hf
      push_neg at hc
      exact ⟨hc.1, hc.2, (Option.some.inj hf).symm⟩
  · intro ctx s ep nodes it hmem
    rw [htmlFetchItems, List.mem_filterMap] at hmem
    obtain ⟨a, ha, hf⟩ := hmem
    refine ⟨a, ha, ?_⟩
    unfold htmlNodeItem? at hf
    by_cases hc : a.rawTitle = "" ∨ joinUrl ctx ep a.rawUrl = ""
    · rw [if_pos hc] at hf
      exact absurd hf (by simp)
    · rw [if_neg hc] at hf
      push_neg at hc
      exact ⟨hc.1, hc.2, (Option.some.inj hf).symm⟩

/-- Witness for the amended claim C2: concrete kept elements of each of
the three adapters, with their non-empty raw fields exhibited. -/
theorem adapters_require_raw_title_url_witness :
    (∃ e ∈ [(⟨"t", "u", PyVal.none, RankVal.none⟩ : RestRaw)], e.title ≠ "" ∧ e.url ≠ "" ∧
      mk_item idCtx ⟨"n", "k"⟩ "t" "u" PyVal.none RankVal.none =
        mk_item idCtx ⟨"n", "k"⟩ e.title e.url e.ts e.rank) ∧
    (∃ e ∈ [(⟨some "t", some "u", Option.none⟩ : RssEntry)],
      e.title.getD "" ≠ "" ∧ e.link.getD "" ≠ "" ∧
      mk_item idCtx ⟨"n", "k"⟩ "t" "u" (PyVal.int 0) RankVal.none =
        mk_item idCtx ⟨"n", "k"⟩ (e.title.getD "") (e.link.getD "")
          (PyVal.int (match e.published with | some m => m | Option.none => 0))
          RankVal.none) ∧
    (∃ a ∈ [(⟨"t", "http://u", Option.none⟩ : HtmlNode)],
      a.rawTitle ≠ "" ∧ joinUrl idCtx "ep" a.rawUrl ≠ "" ∧
      mk_item idCtx ⟨"n", "k"⟩ "t" "http://u" PyVal.none RankVal.none =
        mk_item idCtx ⟨"n", "k"⟩ a.rawTitle (joinUrl idCtx "ep" a.rawUrl)
          (match a.tsVal with | some v => PyVal.str v | Option.none => PyVal.none)
          RankVal.none) :=
  ⟨adapters_require_raw_title_url.1 idCtx ⟨"n", "k"⟩ _ _ (by decide),
   adapters_require_raw_title_url.2.1 idCtx ⟨"n", "k"⟩ _ _ (by decide),
   adapters_require_raw_title_url.2.2 idCtx ⟨"n", "k"⟩ "ep" _ _ (by decide)⟩

/-- Claim C7, counterexample — an RSS entry whose published time
converts to an epoch value above 1e12 does NOT keep that value as the
item's `ts`: `_mk_item` routes it through `parse_ts`, whose
milliseconds heuristic floor-divides it by 1000. -/
theorem rss_large_epoch_divided :
    (rssFetchItems idCtx ⟨"n", "k"⟩ [⟨some "t", some "u", some 2000000000000⟩]).map Item.ts
      = [2000000000] ∧
    (2000000000 : Int) ≠ 2000000000000 := by
  refine ⟨rfl, by decide⟩

/-- Claim C7, amended — for every RSS entry kept by the RSS adapter,
the item's `ts` is the entry's published epoch seconds whenever a parsed
published time is present AND its value is at most 1e12 (larger values
are floor-divided by 1000 by the shared timestamp normalizer), and `ts`
is exactly 0 (never the current time) when no published time is
present. -/
theorem rss_ts_published_or_zero :
    ∀ (ctx : Ctx) (s : SrcId) (entries : List RssEntry) (it : Item),
      it ∈ rssFetchItems ctx s entries →
      ∃ e ∈ entries,
        it.ts = (match e.published with
          | some m => if (1000000000000 : Int) < m then Int.fdiv m 1000 else m
          | Option.none => 0) := by
  intro ctx s entries it hmem
  rw [rssFetchItems, List.mem_filterMap] at hmem
  obtain ⟨e, he, hf⟩ := hmem
  refine ⟨e, he, ?_⟩
  unfold rssEntryItem? at hf
  by_cases hc : e.title.getD "" = "" ∨ e.link.getD "" = ""
  · rw [if_pos hc] at hf
    exact absurd hf (by simp)
  · rw [if_neg hc] at hf
    have hit : it = mk_item ctx s (e.title.getD "") (e.link.getD "")
        (PyVal.int (match e.published with | some m => m | Option.none => 0))
        RankVal.none := (Option.some.inj hf).symm
    subst hit
    cases hp : e.published with
    | none => simp [hp, mk_item, parse_ts]
    | some m => simp [hp, mk_item, parse_ts]

/-- Witness for the amended claim C7: a concrete kept entry without a
published time, whose item carries `ts = 0`. -/
theorem rss_ts_published_or_zero_witness :
    ∃ e ∈ [(⟨some "t", some "u", Option.none⟩ : RssEntry)],
      (mk_item idCtx ⟨"n", "k"⟩ "t" "u" (PyVal.int 0) RankVal.none).ts =
        (match e.published with
          | some m => if (1000000000000 : Int) < m then Int.fdiv m 1000 else m
          | Option.none => 0) :=
  rss_ts_published_or_zero idCtx ⟨"n", "k"⟩ _ _ (by decide)

/-- A fetch oracle under which every REST source fails and every other
source succeeds with no items. -/
def fetchBoom : SCfg → Except String (List Item) :=
  fun c => if c.type = "rest" then Except.error "boom" else Except.ok []

/-- Claim C1 — evaluation at the failing input. The config list holds an
unrecognized source (`type = "atom"`, key `a`, silently skipped) followed
by a REST source (key `b`) whose fetch fails.  The failure IS isolated
(output is the empty concatenation of the successful adapters' items),
but the log line names key `a`, not the failing source's key `b`: the
error loop indexes the gathered results into the ORIGINAL config list,
which is misaligned as soon as an unrecognized config precedes a failing
one. -/
theorem fetch_custom_all_logs_wrong_key :
    fetch_custom_all fetchBoom [⟨"atom", some "a"⟩, ⟨"rest", some "b"⟩] = ([], ["a"]) ∧
    recognized ⟨"atom", some "a"⟩ = false ∧
    fetchBoom ⟨"rest", some "b"⟩ = Except.error "boom" ∧
    (⟨"rest", some "b"⟩ : SCfg).key = some "b" ∧
    ("a" : String) ≠ "b" := by
  refine ⟨rfl, rfl, rfl, rfl, by decide⟩

/-- Lookup after an update at the same key. -/
theorem alistGet?_set_self {α : Type} (m : List (String × α)) (k : String) (v : α) :
    alistGet? (alistSet m k v) k = some v := by
  induction m with
  | nil => simp [alistSet, alistGet?]
  | cons p rest ih =>
    obtain ⟨a, w⟩ := p
    by_cases h : a = k
    · simp [alistSet, alistGet?, h]
    · simp [alistSet, alistGet?, h, ih]

/-- Lookup after an update at a different key. -/
theorem alistGet?_set_other {α : Type} (m : List (String × α)) (k k' : String) (v : α)
    (h : k' ≠ k) : alistGet? (alistSet m k v) k' = alistGet? m k' := by
  induction m with
  | nil => simp [alistSet, alistGet?, Ne.symm h]
  | cons p rest ih =>
    obtain ⟨a, w⟩ := p
    by_cases ha : a = k
    · subst ha
      simp [alistSet, alistGet?, Ne.symm h]
    · simp [alistSet, alistGet?, ha, ih]

/-- Looking up the ensured bucket gives exactly the bucket view
`(alistGet? res sid).getD []` the loop then reads. -/
theorem alistGet?_ensureBucket (res : List (String × List (String × Entry))) (sid : String) :
    alistGet? (ensureBucket res sid) sid = some ((alistGet? res sid).getD []) := by
  unfold ensureBucket
  cases h : alistGet? res sid with
  | some b => simp [h]
  | none => simp [h, alistGet?_set_self]

/-- The `ranks` field of a defaulted entry lookup does not depend on the
url put into the default. -/
theorem ranks_getD (x : Option Entry) (u : String) :
    (x.getD ⟨[], u, ""⟩).ranks = (x.getD ⟨[], "", ""⟩).ranks := by
  cases x <;> rfl

/-- Claim C9 — in `custom_to_results` the rank appended to a title's
entry is the item's own rank when that rank is a non-negative
integer-like value (a non-negative integer or an all-digit string),
and otherwise `1 + ` the current length of the entry's rank list; in
particular, for two identical rank-less items `A`/`u1`/`s1` the
reshaped result for source `custom:s1` has title `A` with ranks
`[1, 2]`. -/
theorem custom_rank_append_rule :
    (∀ (st : CtrState) (it : ItemDict), pyStrip it.title ≠ "" →
        ranksAt (ctrStep st it).1 (sidOf it) (pyStrip it.title) =
          ranksAt st.1 (sidOf it) (pyStrip it.title) ++
            [if isDigitLike it.rank then rankValue it.rank
             else ((ranksAt st.1 (sidOf it) (pyStrip it.title)).length : Int) + 1]) ∧
    ranksAt (custom_to_results [⟨"A", "u1", 0, RankVal.none, "", "s1", ""⟩,
        ⟨"A", "u1", 0, RankVal.none, "", "s1", ""⟩]).1 "custom:s1" "A" = [1, 2] := by
  constructor
  · intro st it ht
    simp only [ctrStep]
    rw [if_neg ht]
    simp only [ranksAt, alistGet?_set_self, Option.getD_some, alistGet?_ensureBucket,
      ranks_getD]
  · rfl

/-- Witness for claim C9's general rank rule at a concrete input: the
first rank-less occurrence of title `A` receives the fallback rank
`0 + 1`. -/
theorem custom_rank_append_rule_witness :
    ranksAt (ctrStep (([], []) : CtrState) ⟨"A", "u1", 0, RankVal.none, "", "s1", ""⟩).1
        (sidOf ⟨"A", "u1", 0, RankVal.none, "", "s1", ""⟩)
        (pyStrip (ItemDict.title ⟨"A", "u1", 0, RankVal.none, "", "s1", ""⟩)) =
      ranksAt (([], []) : CtrState).1 (sidOf ⟨"A", "u1", 0, RankVal.none, "", "s1", ""⟩)
          (pyStrip (ItemDict.title ⟨"A", "u1", 0, RankVal.none, "", "s1", ""⟩)) ++
        [if isDigitLike (ItemDict.rank ⟨"A", "u1", 0, RankVal.none, "", "s1", ""⟩) then
            rankValue (ItemDict.rank ⟨"A", "u1", 0, RankVal.none, "", "s1", ""⟩)
         else ((ranksAt (([], []) : CtrState).1
            (sidOf ⟨"A", "u1", 0, RankVal.none, "", "s1", ""⟩)
            (pyStrip (ItemDict.title ⟨"A", "u1", 0, RankVal.none, "", "s1", ""⟩))).length : Int)
            + 1] :=
  custom_rank_append_rule.1 ([], []) ⟨"A", "u1", 0, RankVal.none, "", "s1", ""⟩ (by decide)

/-- Claim C10, counterexample — an item whose title is empty after
trimming is NOT invisible to `custom_to_results`: before the title
check the loop already registers the source, so both returned mappings
differ from the run without that item (the results map gains an empty
bucket for `custom:s9` and the display-name map gains `N9`). -/
theorem empty_title_item_registers_source :
    custom_to_results [⟨"", "", 0, RankVal.none, "N9", "s9", ""⟩] =
      ([("custom:s9", [])], [("custom:s9", "N9")]) ∧
    custom_to_results ([] : List ItemDict) = ([], []) ∧
    custom_to_results [⟨"", "", 0, RankVal.none, "N9", "s9", ""⟩] ≠
      custom_to_results ([] : List ItemDict) := by
  refine ⟨rfl, rfl, by decide⟩

/-- Claim C10, amended — an item whose title is empty after trimming
contributes no title entry, but it does register its source: the
display-name map binds its source id to its display name, the results
map gains (at most) an empty bucket for its source id when absent, and
every other binding of both mappings is unchanged. -/
theorem empty_title_item_effects :
    ∀ (st : CtrState) (it : ItemDict) (k : String), pyStrip it.title = "" →
      alistGet? (ctrStep st it).2 k =
        (if k = sidOf it then some (snameOf it) else alistGet? st.2 k) ∧
      alistGet? (ctrStep st it).1 k =
        (if k = sidOf it ∧ alistGet? st.1 (sidOf it) = Option.none then some []
         else alistGet? st.1 k) := by
  intro st it k ht
  simp only [ctrStep]
  rw [if_pos ht]
  constructor
  · by_cases hk : k = sidOf it
    · subst hk
      simp [alistGet?_set_self]
    · simp [hk, alistGet?_set_other _ _ _ _ hk]
  · unfold ensureBucket
    cases hb : alistGet? st.1 (sidOf it) with
    | some b => simp [hb]
    | none =>
      simp only [hb, Option.isSome_none, Bool.false_eq_true, if_false]
      by_cases hk : k = sidOf it
      · subst hk
        simp [alistGet?_set_self]
      · simp [hk, alistGet?_set_other _ _ _ _ hk]

/-- Witness for the amended claim C10 at a concrete empty-title item and
its own source id. -/
theorem empty_title_item_effects_witness :
    alistGet? (ctrStep (([], []) : CtrState) ⟨"", "", 0, RankVal.none, "N9", "s9", ""⟩).2
        "custom:s9" =
      (if "custom:s9" = sidOf ⟨"", "", 0, RankVal.none, "N9", "s9", ""⟩ then
          some (snameOf ⟨"", "", 0, RankVal.none, "N9", "s9", ""⟩)
       else alistGet? (([], []) : CtrState).2 "custom:s9") ∧
    alistGet? (ctrStep (([], []) : CtrState) ⟨"", "", 0, RankVal.none, "N9", "s9", ""⟩).1
        "custom:s9" =
      (if "custom:s9" = sidOf ⟨"", "", 0, RankVal.none, "N9", "s9", ""⟩ ∧
          alistGet? (([], []) : CtrState).1
            (sidOf ⟨"", "", 0, RankVal.none, "N9", "s9", ""⟩) = Option.none then some []
       else alistGet? (([], []) : CtrState).1 "custom:s9") :=
  empty_title_item_effects ([], []) ⟨"", "", 0, RankVal.none, "N9", "s9", ""⟩
    "custom:s9" (by decide)
